import Mathlib

/-!
Shallow embedding of the digital-life-lesson-server HTTP handlers
(final revision, `src/unnamed/part_000`).

Collections of the document store are modelled as Lean lists of records;
`findOne` is `List.find?` (first match), `updateOne` updates the first
matching document, `insertOne` appends, `countDocuments` counts matches.
Query parameters arrive as JS strings; a parameter wrapped in `Option`
models presence, and the JS truthiness test `if (param)` treats the empty
string like absence.
-/

set_option autoImplicit false

namespace DLL

/-- Model of `updateOne`: apply `f` to the first element satisfying `p`, keep the rest. -/
def updateFirst {α : Type} (p : α → Bool) (f : α → α) : List α → List α
  | [] => []
  | x :: xs => if p x then f x :: xs else x :: updateFirst p f xs

theorem updateFirst_of_no_match {α : Type} (p : α → Bool) (f : α → α) :
    ∀ xs : List α, (∀ x ∈ xs, p x = false) → updateFirst p f xs = xs := by
  intro xs
  induction xs with
  | nil => intro _; rfl
  | cons x xs ih =>
    intro h
    simp only [updateFirst, h x (List.mem_cons_self x xs)]
    simp only [Bool.false_eq_true, if_false, List.cons.injEq, true_and]
    exact ih fun y hy => h y (List.mem_cons_of_mem x hy)

theorem updateFirst_mem_updated {α : Type} (p : α → Bool) (f : α → α) :
    ∀ xs : List α, (∃ x ∈ xs, p x = true) →
      ∃ x, x ∈ xs ∧ p x = true ∧ f x ∈ updateFirst p f xs := by
  intro xs
  induction xs with
  | nil => rintro ⟨x, hx, _⟩; exact absurd hx (List.not_mem_nil x)
  | cons x xs ih =>
    rintro ⟨y, hy, hpy⟩
    by_cases hpx : p x = true
    · exact ⟨x, List.mem_cons_self x xs, hpx, by simp [updateFirst, hpx]⟩
    · rcases List.mem_cons.mp hy with rfl | hy'
      · exact absurd hpy hpx
      · rcases ih ⟨y, hy', hpy⟩ with ⟨z, hz, hpz, hfz⟩
        refine ⟨z, List.mem_cons_of_mem x hz, hpz, ?_⟩
        simp [updateFirst, hpx, hfz]

/-- The first match of `p` after `updateFirst p f`, when `f` preserves `p`,
is `f` of the original first match. -/
theorem find?_updateFirst {α : Type} (p : α → Bool) (f : α → α)
    (hf : ∀ x, p x = true → p (f x) = true) :
    ∀ xs : List α, (updateFirst p f xs).find? p = (xs.find? p).map f := by
  intro xs
  induction xs with
  | nil => rfl
  | cons x xs ih =>
    by_cases hpx : p x = true
    · simp [updateFirst, hpx, List.find?_cons, hf x hpx]
    · simp only [updateFirst, hpx, Bool.false_eq_true, if_false]
      rw [List.find?_cons_of_neg _ (by simp [hpx]),
        List.find?_cons_of_neg _ (by simp [hpx]), ih]

/-- Case-insensitive substring test, modelling `{ $regex: search, $options: "i" }`
for a pattern without regex metacharacters. -/
def chPre : List Char → List Char → Bool
  | [], _ => true
  | _ :: _, [] => false
  | a :: as, b :: bs => a == b && chPre as bs

def chInf (n : List Char) : List Char → Bool
  | [] => chPre n []
  | b :: bs => chPre n (b :: bs) || chInf n bs

def strContainsCI (hay pat : String) : Bool :=
  chInf pat.toLower.toList hay.toLower.toList

/-- JS truthiness of an optional string parameter: `undefined` and `""` are falsy. -/
def jsTruthy : Option String → Bool
  | none => false
  | some s => s ≠ ""

/-- Model of `x || d` on an optional string (JS `||` falls through on `undefined` and `""`). -/
def jsOr (x : Option String) (d : String) : String :=
  match x with
  | none => d
  | some s => if s = "" then d else s

/-! ## Data model -/

/-- A document of the `users` collection. Optional fields model fields that
may be absent from a document. -/
structure User where
  email : String
  name : Option String := none
  role : Option String := none
  isPremium : Option Bool := none
  transactionId : Option String := none
  create_at : Nat := 0
deriving DecidableEq

/-- A comment object as built by the comments handler. -/
structure Comment where
  name : String
  email : String
  comment : String
  createdAt : Nat
deriving DecidableEq

/-- A document of the `lessons` collection (fields the handlers touch).
`id` stands for the store-generated `_id`; `createdAt` is an abstract
timestamp. A missing `likes`/`favorites`/`comments` array behaves like `[]`
under `?.includes`, `$addToSet`, `$pull` and `$push`, so lists suffice. -/
structure Lesson where
  id : Nat
  title : String := ""
  category : String := ""
  visibility : String := ""
  accessLevel : String := ""
  createdAt : Nat := 0
  likes : List String := []
  favorites : List String := []
  comments : List Comment := []
  featured : Bool := false
deriving DecidableEq

/-- A Stripe checkout session as seen by the reconciliation handler. -/
structure Session where
  payment_intent : String
  payment_status : String
  customer_email : String
deriving DecidableEq

/-! ## Authorization middleware: verifyAdmin -/

inductive AdminCheck where
  | ok
  | forbidden
deriving DecidableEq

/-- Middleware `verifyAdmin` (part_000 lines 61-71): look up the verified principal's
user record; 403 unless `result?.role === "admin"`. -/
def verifyAdmin (users : List User) (email : String) : AdminCheck :=
  match users.find? (fun u => u.email == email) with
  | some u => if u.role = some "admin" then .ok else .forbidden
  | none => .forbidden

/-! ## GET /public-lessons -/

/-- Query parameters of GET /public-lessons. `limit`/`skip` already parsed
to numbers (`Number(...)` of a numeric query string), absent by default. -/
structure PublicQuery where
  limit : Option Nat := none
  skip : Option Nat := none
  category : Option String := none
  visibility : Option String := none
  search : Option String := none
deriving DecidableEq

/-- The `visibility` value of the Mongo query built by the handler:
preset to `"public"`, overwritten when a truthy `visibility` parameter
is supplied. -/
def queryVisibility (q : PublicQuery) : String :=
  match q.visibility with
  | some v => if v = "" then "public" else v
  | none => "public"

/-- The filter document built by GET /public-lessons, as a predicate. -/
def matchesPublic (q : PublicQuery) (l : Lesson) : Bool :=
  l.visibility == queryVisibility q
    && (match q.category with
        | some c => if c = "" then true else l.category == c
        | none => true)
    && (match q.search with
        | some s => if s = "" then true else strContainsCI l.title s
        | none => true)

/-- Insertion step of the descending-`createdAt` sort (`.sort({ createdAt: -1 })`). -/
def insertDesc (x : Lesson) : List Lesson → List Lesson
  | [] => [x]
  | y :: ys => if y.createdAt ≤ x.createdAt then x :: y :: ys else y :: insertDesc x ys

def sortDesc : List Lesson → List Lesson
  | [] => []
  | x :: xs => insertDesc x (sortDesc xs)

theorem mem_insertDesc (a x : Lesson) (l : List Lesson) :
    a ∈ insertDesc x l ↔ a = x ∨ a ∈ l := by
  induction l with
  | nil => simp [insertDesc]
  | cons y ys ih =>
    by_cases h : y.createdAt ≤ x.createdAt
    · simp [insertDesc, h]
    · simp only [insertDesc, h, if_false, List.mem_cons, ih]
      tauto

theorem mem_sortDesc (a : Lesson) (l : List Lesson) :
    a ∈ sortDesc l ↔ a ∈ l := by
  induction l with
  | nil => simp [sortDesc]
  | cons x xs ih => simp [sortDesc, mem_insertDesc, ih]

/-- GET /public-lessons (part_000 lines 89-128): count the filtered
collection, then return the page `skip`/`limit` of the sorted filter,
with defaults `skip = 0`, `limit = 6`. -/
def publicLessons (lessons : List Lesson) (q : PublicQuery) : Nat × List Lesson :=
  let filtered := lessons.filter (matchesPublic q)
  let total := filtered.length
  let page := ((sortDesc filtered).drop (q.skip.getD 0)).take (q.limit.getD 6)
  (total, page)

/-! ## PATCH /lesson/:id/likes and PATCH /lesson/:id/comments -/

inductive LessonPatchOutcome where
  | notFound
  | ok
deriving DecidableEq

/-- HTTP status of a like-toggle response. -/
def likeStatus : LessonPatchOutcome → Nat
  | .notFound => 404
  | .ok => 200

/-- The update `{ $pull: { likes: email } }`: remove every occurrence of the email. -/
def pullLike (email : String) (l : Lesson) : Lesson :=
  { l with likes := l.likes.filter (fun x => x ≠ email) }

/-- The update `{ $addToSet: { likes: email } }`: append the email unless already a member. -/
def addLike (email : String) (l : Lesson) : Lesson :=
  { l with likes := if email ∈ l.likes then l.likes else l.likes ++ [email] }

/-- PATCH /lesson/:id/likes (part_000 lines 273-302): find the lesson by id;
404 when absent; otherwise `$pull` the principal's email from `likes` when
already a member (`likes?.includes(email)`), else `$addToSet` it. -/
def handleLikes (lessons : List Lesson) (lid : Nat) (email : String) :
    LessonPatchOutcome × List Lesson :=
  match lessons.find? (fun l => l.id == lid) with
  | none => (.notFound, lessons)
  | some lesson =>
    let upd : Lesson → Lesson :=
      if email ∈ lesson.likes then pullLike email else addLike email
    (.ok, updateFirst (fun l => l.id == lid) upd lessons)

/-- PATCH /lesson/:id/comments (part_000 lines 303-330): `$push` a comment
object onto the lesson's `comments` and reply 200 unconditionally — there
is no existence check, so a missing id still yields the success message. -/
def handleComments (lessons : List Lesson) (lid : Nat)
    (email name comment : String) (now : Nat) : (Nat × String) × List Lesson :=
  let commentObj : Comment := ⟨name, email, comment, now⟩
  ((200, "Comment added successfully"),
    updateFirst (fun l => l.id == lid)
      (fun l => { l with comments := l.comments ++ [commentObj] }) lessons)

/-! ## POST /users, GET /users/:email/role -/

inductive RegisterOutcome where
  | alreadyExists (u : User)
  | created
deriving DecidableEq

/-- HTTP status of the registration response. -/
def registerStatus : RegisterOutcome → Nat
  | .alreadyExists _ => 200
  | .created => 201

/-- POST /users (part_000 lines 583-607): stamp `create_at` and force
`role = "user"` on the payload, then insert only when no record with the
payload's email exists; otherwise return the existing record with 200.
The handler never touches `isPremium`, so the payload's value is stored. -/
def postUsers (users : List User) (p : User) (now : Nat) :
    RegisterOutcome × List User :=
  let u : User := { p with role := some "user", create_at := now }
  match users.find? (fun x => x.email == p.email) with
  | some existing => (.alreadyExists existing, users)
  | none => (.created, users ++ [u])

/-- GET /users/:email/role (part_000 lines 649-664): reply
`user?.role || "user"` and `user?.isPremium || false`, never an error. -/
def getUserRole (users : List User) (email : String) : String × Bool :=
  match users.find? (fun u => u.email == email) with
  | none => ("user", false)
  | some u => (jsOr u.role "user", u.isPremium.getD false)

/-! ## GET /analytics/accessLevel -/

/-- The `$match` stage of the access-level pipeline: created in the
analytics window and public. -/
def windowPublic (startD endD : Nat) (l : Lesson) : Bool :=
  (startD ≤ l.createdAt && l.createdAt ≤ endD) && l.visibility == "public"

/-- GET /analytics/accessLevel (part_000 lines 543-580): `$match` the
window and `visibility = "public"`, `$group` by `accessLevel` with counts,
then normalize so `free` and `premium` both appear, count 0 when absent. -/
def accessLevelAnalytics (lessons : List Lesson) (startD endD : Nat) :
    List (String × Nat) :=
  let filtered := lessons.filter (windowPublic startD endD)
  let levels := (filtered.map (fun l => l.accessLevel)).dedup
  let data := levels.map (fun lv => (lv, (filtered.filter (fun l => l.accessLevel == lv)).length))
  ["free", "premium"].map (fun level =>
    (level, match data.find? (fun d => d.1 == level) with
            | some d => d.2
            | none => 0))

/-! ## PATCH /session-status -/

inductive SessionOutcome where
  /-- `{ success: false, message: "Payment already processed", transactionId }` -/
  | alreadyProcessed (transactionId : String)
  /-- `{ success: true, transactionId }` with HTTP 200 -/
  | paidOk (transactionId : String)
  /-- `payment_status ≠ "paid"` and no prior transaction: the handler sends
  no response at all -/
  | noResponse
deriving DecidableEq

/-- PATCH /session-status (part_000 lines 748-782): retrieve the session;
if some user already bears its `payment_intent` as `transactionId`, report
"already processed" without mutating; else when the session is `"paid"`,
`$set` `isPremium = true` and the transaction id on the first user whose
email is the session's customer email. -/
def handleSessionStatus (users : List User) (s : Session) :
    SessionOutcome × List User :=
  let txn := s.payment_intent
  match users.find? (fun u => u.transactionId == some txn) with
  | some _ => (.alreadyProcessed txn, users)
  | none =>
    if s.payment_status = "paid" then
      (.paidOk txn,
        updateFirst (fun u => u.email == s.customer_email)
          (fun u => { u with isPremium := some true, transactionId := some txn }) users)
    else
      (.noResponse, users)

/-! ## Auxiliary lemmas -/

theorem find?_keyed_map (f : String → Nat) (lv : String) :
    ∀ levels : List String, lv ∈ levels →
      (levels.map (fun x => (x, f x))).find? (fun d => d.1 == lv) = some (lv, f lv) := by
  intro levels
  induction levels with
  | nil => intro h; exact absurd h (List.not_mem_nil lv)
  | cons x xs ih =>
    intro h
    by_cases hx : x = lv
    · subst hx
      simp [List.find?_cons]
    · have h' : lv ∈ xs := by
        rcases List.mem_cons.mp h with rfl | h'
        · exact absurd rfl hx
        · exact h'
      simp only [List.map_cons]
      rw [List.find?_cons_of_neg _ (by simp [hx])]
      exact ih h'

/-- The normalization step of the access-level pipeline recovers, for any
level, the count of matching lessons — 0 when the `$group` stage produced
no entry for it. -/
theorem grouped_count (filtered : List Lesson) (lv : String) :
    (match ((filtered.map (fun l => l.accessLevel)).dedup.map
        (fun x => (x, (filtered.filter (fun l => l.accessLevel == x)).length))).find?
        (fun d => d.1 == lv) with
      | some d => d.2
      | none => 0) =
      (filtered.filter (fun l => l.accessLevel == lv)).length := by
  by_cases h : lv ∈ (filtered.map (fun l => l.accessLevel)).dedup
  · rw [find?_keyed_map (fun x => (filtered.filter (fun l => l.accessLevel == x)).length) lv _ h]
  · have hn : ((filtered.map (fun l => l.accessLevel)).dedup.map
        (fun x => (x, (filtered.filter (fun l => l.accessLevel == x)).length))).find?
        (fun d => d.1 == lv) = none := by
      rw [List.find?_eq_none]
      intro d hd
      obtain ⟨x, hx, rfl⟩ := List.mem_map.mp hd
      simp only [beq_iff_eq]
      intro heq
      exact h (heq ▸ hx)
    rw [hn]
    symm
    rw [List.length_eq_zero, List.filter_eq_nil_iff]
    intro a ha
    simp only [beq_iff_eq]
    intro heq
    apply h
    rw [List.mem_dedup]
    exact List.mem_map.mpr ⟨a, ha, heq⟩

/-! ## Theorems -/

/-- C5: after principal verification, `verifyAdmin` answers Forbidden (403)
iff the principal's user record is missing or its role is not `"admin"`;
when the first record found has role `"admin"`, the request proceeds. -/
theorem verifyAdmin_forbidden_iff (users : List User) (email : String) :
    (verifyAdmin users email = .forbidden ↔
      ((∀ u ∈ users, u.email ≠ email) ∨
        ∃ u, users.find? (fun v => v.email == email) = some u ∧ u.role ≠ some "admin")) ∧
    (∀ u, users.find? (fun v => v.email == email) = some u → u.role = some "admin" →
      verifyAdmin users email = .ok) := by
  constructor
  · unfold verifyAdmin
    cases h : users.find? (fun v => v.email == email) with
    | none =>
      simp only [h]
      constructor
      · intro _
        left
        intro u hu
        simpa using List.find?_eq_none.mp h u hu
      · intro _
        trivial
    | some u =>
      simp only [h]
      by_cases hr : u.role = some "admin"
      · simp only [hr, if_true]
        constructor
        · intro hcontra
          exact absurd hcontra (by decide)
        · rintro (hall | ⟨u', hu', hrole⟩)
          · have hmem := List.mem_of_find?_eq_some h
            have hp : u.email = email := by simpa using List.find?_some h
            exact absurd hp (hall u hmem)
          · rw [Option.some_inj.mp hu'] at hr
            exact absurd hr hrole
      · simp only [hr, if_false]
        exact ⟨fun _ => Or.inr ⟨u, rfl, hr⟩, fun _ => trivial⟩
  · intro u hu hrole
    simp [verifyAdmin, hu, hrole]

/-- Witness for C5: an `"admin"`-role record lets the request proceed. -/
theorem verifyAdmin_witness :
    verifyAdmin [{ email := "a@x.com", role := some "admin" }] "a@x.com" = .ok :=
  (verifyAdmin_forbidden_iff [{ email := "a@x.com", role := some "admin" }] "a@x.com").2
    { email := "a@x.com", role := some "admin" } (by decide) rfl

/-- C1 counterexample: supplying `visibility=private` overrides the preset
`visibility: "public"` filter, so the page returned for this one-lesson
collection consists of a lesson whose visibility is `"private"`. -/
theorem publicLessons_visibility_cx :
    ((publicLessons [{ id := 1, visibility := "private" }]
        { visibility := some "private" }).2.map (fun l => l.visibility)) = ["private"] ∧
      ("private" : String) ≠ "public" := by decide

/-- C1 amended: every lesson in the returned page has visibility equal to
the query's effective visibility — the supplied `visibility` parameter when
truthy, and `"public"` whenever that parameter is absent or empty. -/
theorem publicLessons_page_visibility (lessons : List Lesson) (q : PublicQuery) :
    (∀ l ∈ (publicLessons lessons q).2, l.visibility = queryVisibility q) ∧
    (jsTruthy q.visibility = false → queryVisibility q = "public") := by
  constructor
  · intro l hl
    simp only [publicLessons] at hl
    have h1 : l ∈ sortDesc (lessons.filter (matchesPublic q)) :=
      List.mem_of_mem_drop (List.mem_of_mem_take hl)
    have h2 : l ∈ lessons.filter (matchesPublic q) := (mem_sortDesc l _).mp h1
    have h3 := (List.mem_filter.mp h2).2
    unfold matchesPublic at h3
    simp only [Bool.and_eq_true, beq_iff_eq] at h3
    exact h3.1.1
  · intro hf
    unfold queryVisibility
    cases hv : q.visibility with
    | none => rfl
    | some v =>
      rw [hv] at hf
      simp [jsTruthy] at hf
      simp [hf]

/-- Witness for C1 amended: with no visibility parameter the page's lesson
is public. -/
theorem publicLessons_page_visibility_witness :
    ({ id := 2, visibility := "public" } : Lesson).visibility = queryVisibility {} :=
  (publicLessons_page_visibility [{ id := 2, visibility := "public" }] {}).1
    { id := 2, visibility := "public" } (by decide)

/-- C7: the reported `total` is the unpaginated filtered count, and the
returned page holds at most `limit` lessons (default 6). -/
theorem publicLessons_pagination (lessons : List Lesson) (q : PublicQuery) :
    (publicLessons lessons q).1 = lessons.countP (matchesPublic q) ∧
    (publicLessons lessons q).2.length ≤ q.limit.getD 6 := by
  constructor
  · simp [publicLessons, List.countP_eq_length_filter]
  · simp only [publicLessons]
    exact List.length_take_le _ _

/-- C10: when no lesson has the requested id, the add-comment handler still
answers HTTP 200 with `"Comment added successfully"` and the lessons
collection is unchanged — it never reports NotFound. -/
theorem commentsMissingLessonOk (lessons : List Lesson) (lid : Nat)
    (email name comment : String) (now : Nat)
    (h : ∀ l ∈ lessons, l.id ≠ lid) :
    handleComments lessons lid email name comment now =
      ((200, "Comment added successfully"), lessons) := by
  simp only [handleComments]
  rw [updateFirst_of_no_match _ _ lessons (fun l hl => by simpa using h l hl)]

/-- Witness for C10: commenting on a missing id succeeds and changes nothing. -/
theorem commentsMissingLessonOk_witness :
    handleComments [{ id := 1 }] 99 "e@x.com" "n" "hello" 7 =
      ((200, "Comment added successfully"), [{ id := 1 }]) :=
  commentsMissingLessonOk [{ id := 1 }] 99 "e@x.com" "n" "hello" 7 (by decide)

/-- C3: registration is idempotent by email — when a record with the
payload's email exists, the handler returns that record with HTTP 200 and
the collection is unchanged; and registration preserves the invariant that
no email occurs on two records. -/
theorem register_idempotent (users : List User) (p : User) (now : Nat) :
    (∀ e, users.find? (fun u => u.email == p.email) = some e →
      postUsers users p now = (.alreadyExists e, users) ∧
        registerStatus (postUsers users p now).1 = 200) ∧
    ((∀ em, users.countP (fun u => u.email == em) ≤ 1) →
      ∀ em, (postUsers users p now).2.countP (fun u => u.email == em) ≤ 1) := by
  constructor
  · intro e he
    have heq : postUsers users p now = (.alreadyExists e, users) := by
      simp [postUsers, he]
    exact ⟨heq, by rw [heq]; rfl⟩
  · intro huniq em
    cases h : users.find? (fun u => u.email == p.email) with
    | some e =>
      simpa [postUsers, h] using huniq em
    | none =>
      simp only [postUsers, h, List.countP_append]
      by_cases hem : p.email = em
      · have h0 : List.countP (fun u => u.email == em) users = 0 := by
          rw [List.countP_eq_zero]
          intro u hu
          simpa [hem] using List.find?_eq_none.mp h u hu
        simp [h0, List.countP_cons, hem]
      · have h1 : List.countP (fun u => u.email == em) users ≤ 1 := huniq em
        simpa [List.countP_cons, hem] using h1

/-- Witness for C3: re-registering an existing email returns the stored
record and inserts nothing. -/
theorem register_idempotent_witness :
    postUsers [{ email := "a@x.com", role := some "user", create_at := 1 }]
        { email := "a@x.com" } 9 =
      (.alreadyExists { email := "a@x.com", role := some "user", create_at := 1 },
        [{ email := "a@x.com", role := some "user", create_at := 1 }]) :=
  ((register_idempotent [{ email := "a@x.com", role := some "user", create_at := 1 }]
      { email := "a@x.com" } 9).1
    { email := "a@x.com", role := some "user", create_at := 1 } (by decide)).1

/-- C6 counterexample: the handler forces `role = "user"` but never touches
`isPremium`, so a payload carrying `isPremium: true` is stored with the
premium flag true, not false. -/
theorem register_premium_not_forced_cx :
    ((postUsers [] { email := "a@x.com", role := some "admin", isPremium := some true } 5).2.map
      (fun u => (u.role, u.isPremium))) = [(some "user", some true)] ∧
      some true ≠ some false := by decide

/-- C6 amended: on a fresh email exactly one record is appended; it keeps
the payload's email, has role `"user"` and the creation timestamp
regardless of the payload's role, and carries the payload's `isPremium`
value unchanged (absent by default) rather than a forced `false`. -/
theorem register_creation_defaults (users : List User) (p : User) (now : Nat)
    (h : ∀ u ∈ users, u.email ≠ p.email) :
    (postUsers users p now).1 = .created ∧
    (postUsers users p now).2.length = users.length + 1 ∧
    ((postUsers users p now).2.getLast?).map
        (fun u => (u.email, u.role, u.create_at, u.isPremium)) =
      some (p.email, some "user", now, p.isPremium) := by
  have hn : users.find? (fun u => u.email == p.email) = none := by
    rw [List.find?_eq_none]
    intro u hu
    simpa using h u hu
  simp [postUsers, hn, List.getLast?_concat]

/-- Witness for C6 amended: a fresh registration stores role `"user"`, the
timestamp, and the payload's premium value. -/
theorem register_creation_defaults_witness :
    (postUsers [] { email := "b@x.com", isPremium := some true } 3).1 = .created ∧
    (postUsers [] { email := "b@x.com", isPremium := some true } 3).2.length =
      ([] : List User).length + 1 ∧
    ((postUsers [] { email := "b@x.com", isPremium := some true } 3).2.getLast?).map
        (fun u => (u.email, u.role, u.create_at, u.isPremium)) =
      some ("b@x.com", some "user", 3, some true) :=
  register_creation_defaults [] { email := "b@x.com", isPremium := some true } 3 (by decide)

/-- C8 counterexample: a record whose `role` field is present but empty is
reported as role `"user"`, because JS `||` treats `""` as falsy — the
handler does not return that record's role. -/
theorem roleLookup_empty_role_cx :
    getUserRole [{ email := "a@x.com", role := some "" }] "a@x.com" = ("user", false) ∧
      ("user" : String) ≠ "" := by decide

/-- C8 amended: role lookup never fails — an unknown email yields
`("user", false)`, and an existing record yields its role (with `"user"`
substituted when the field is absent or the empty string) and its premium
flag (false when absent). -/
theorem roleLookup_total (users : List User) (email : String) :
    ((∀ u ∈ users, u.email ≠ email) → getUserRole users email = ("user", false)) ∧
    (∀ u, users.find? (fun v => v.email == email) = some u →
      getUserRole users email =
        ((match u.role with
          | none => "user"
          | some r => if r = "" then "user" else r), u.isPremium.getD false)) := by
  constructor
  · intro h
    have hn : users.find? (fun v => v.email == email) = none := by
      rw [List.find?_eq_none]
      intro u hu
      simpa using h u hu
    simp [getUserRole, hn]
  · intro u hu
    simp [getUserRole, hu, jsOr]

/-- Witness for C8 amended: lookup of an unknown email defaults. -/
theorem roleLookup_total_witness :
    getUserRole [{ email := "b@x.com" }] "missing@x.com" = ("user", false) :=
  (roleLookup_total [{ email := "b@x.com" }] "missing@x.com").1 (by decide)

/-- C9: for every lessons collection and analytics window, the access-level
response is exactly the two entries `free` then `premium`, each carrying
the count of matching public lessons in the window — 0 when none match,
never an omitted entry. -/
theorem accessLevelNormalized (lessons : List Lesson) (startD endD : Nat) :
    accessLevelAnalytics lessons startD endD =
      [("free", ((lessons.filter (windowPublic startD endD)).filter
          (fun l => l.accessLevel == "free")).length),
       ("premium", ((lessons.filter (windowPublic startD endD)).filter
          (fun l => l.accessLevel == "premium")).length)] := by
  simp only [accessLevelAnalytics, List.map_cons, List.map_nil]
  rw [grouped_count, grouped_count]

/-- C2: payment reconciliation is idempotent — when some user record
already bears the session's transaction id, the handler reports "already
processed" (success: false) and mutates nothing; a non-"paid" session
never mutates; and after a "paid" call for a customer with a record, any
replay reports "already processed" and leaves the state unchanged. -/
theorem sessionReconciliationIdempotent (users : List User) (s : Session) :
    ((∃ u ∈ users, u.transactionId = some s.payment_intent) →
      handleSessionStatus users s = (.alreadyProcessed s.payment_intent, users)) ∧
    (s.payment_status ≠ "paid" → (handleSessionStatus users s).2 = users) ∧
    (s.payment_status = "paid" → (∃ u ∈ users, u.email = s.customer_email) →
      handleSessionStatus (handleSessionStatus users s).2 s =
        (.alreadyProcessed s.payment_intent, (handleSessionStatus users s).2)) := by
  refine ⟨?_, ?_, ?_⟩
  · rintro ⟨u, hu, ht⟩
    have hs : (users.find? (fun v => v.transactionId == some s.payment_intent)).isSome := by
      rw [List.find?_isSome]
      exact ⟨u, hu, by simp [ht]⟩
    obtain ⟨u', hu'⟩ := Option.isSome_iff_exists.mp hs
    simp [handleSessionStatus, hu']
  · intro hnp
    cases h : users.find? (fun v => v.transactionId == some s.payment_intent) with
    | some u => simp [handleSessionStatus, h]
    | none => simp [handleSessionStatus, h, hnp]
  · intro hpaid hex
    cases h : users.find? (fun v => v.transactionId == some s.payment_intent) with
    | some u =>
      have h1 : handleSessionStatus users s = (.alreadyProcessed s.payment_intent, users) := by
        simp [handleSessionStatus, h]
      rw [h1]
      exact h1
    | none =>
      have h1 : handleSessionStatus users s =
          (.paidOk s.payment_intent,
            updateFirst (fun u => u.email == s.customer_email)
              (fun u => { u with isPremium := some true, transactionId := some s.payment_intent })
              users) := by
        simp [handleSessionStatus, h, hpaid]
      obtain ⟨x, hx, hpx, hfx⟩ :=
        updateFirst_mem_updated (fun u => u.email == s.customer_email)
          (fun u => { u with isPremium := some true, transactionId := some s.payment_intent })
          users
          (by rcases hex with ⟨u, hu, he⟩; exact ⟨u, hu, by simp [he]⟩)
      have hs2 : ((updateFirst (fun u => u.email == s.customer_email)
          (fun u => { u with isPremium := some true, transactionId := some s.payment_intent })
          users).find? (fun v => v.transactionId == some s.payment_intent)).isSome := by
        rw [List.find?_isSome]
        exact ⟨_, hfx, by simp⟩
      obtain ⟨u'', hu''⟩ := Option.isSome_iff_exists.mp hs2
      rw [h1]
      simp [handleSessionStatus, hu'']

/-- Witness for C2: a paid session for a known customer, replayed, answers
"already processed" and leaves the updated collection unchanged. -/
theorem sessionReconciliationIdempotent_witness :
    handleSessionStatus
        (handleSessionStatus [{ email := "a@x.com" }] ⟨"pi_1", "paid", "a@x.com"⟩).2
        ⟨"pi_1", "paid", "a@x.com"⟩ =
      (.alreadyProcessed "pi_1",
        (handleSessionStatus [{ email := "a@x.com" }] ⟨"pi_1", "paid", "a@x.com"⟩).2) :=
  (sessionReconciliationIdempotent [{ email := "a@x.com" }] ⟨"pi_1", "paid", "a@x.com"⟩).2.2
    rfl (by decide)

/-- C4: the like toggle is its own inverse — on a missing id it answers
NotFound (404) and changes no lesson; on an existing lesson, toggling
twice with the same verified email returns the lesson's set of likers to
its original value. -/
theorem likesToggleInverse (lessons : List Lesson) (lid : Nat) (email : String) :
    (lessons.find? (fun l => l.id == lid) = none →
      handleLikes lessons lid email = (.notFound, lessons) ∧
        likeStatus (handleLikes lessons lid email).1 = 404) ∧
    (∀ l0, lessons.find? (fun l => l.id == lid) = some l0 →
      (((handleLikes (handleLikes lessons lid email).2 lid email).2).find?
          (fun l => l.id == lid)).map (fun l => l.likes.toFinset) =
        some l0.likes.toFinset) := by
  constructor
  · intro h
    exact ⟨by simp [handleLikes, h], by simp [handleLikes, h, likeStatus]⟩
  · intro l0 h0
    by_cases hc : email ∈ l0.likes
    · have h1 : (handleLikes lessons lid email).2 =
          updateFirst (fun l => l.id == lid) (pullLike email) lessons := by
        simp [handleLikes, h0, hc]
      have hfind1 : (updateFirst (fun l => l.id == lid) (pullLike email) lessons).find?
          (fun l => l.id == lid) = some (pullLike email l0) := by
        rw [find?_updateFirst (fun l => l.id == lid) (pullLike email) (fun x hx => hx) lessons,
          h0, Option.map_some']
      have hc2 : email ∉ (pullLike email l0).likes := by
        simp [pullLike]
      have h2 : (handleLikes (updateFirst (fun l => l.id == lid) (pullLike email) lessons)
            lid email).2 =
          updateFirst (fun l => l.id == lid) (addLike email)
            (updateFirst (fun l => l.id == lid) (pullLike email) lessons) := by
        simp [handleLikes, hfind1, hc2]
      have hfind2 : (updateFirst (fun l => l.id == lid) (addLike email)
            (updateFirst (fun l => l.id == lid) (pullLike email) lessons)).find?
          (fun l => l.id == lid) = some (addLike email (pullLike email l0)) := by
        rw [find?_updateFirst (fun l => l.id == lid) (addLike email) (fun x hx => hx)
            (updateFirst (fun l => l.id == lid) (pullLike email) lessons),
          hfind1, Option.map_some']
      have hadd2 : (addLike email (pullLike email l0)).likes =
          (pullLike email l0).likes ++ [email] := by
        simp [addLike, hc2]
      rw [h1, h2, hfind2, Option.map_some']
      congr 1
      ext a
      rw [hadd2]
      simp only [pullLike, List.mem_toFinset, List.mem_append, List.mem_filter,
        List.mem_singleton, decide_eq_true_eq]
      constructor
      · rintro (⟨ha, _⟩ | rfl)
        · exact ha
        · exact hc
      · intro ha
        by_cases hae : a = email
        · exact Or.inr hae
        · exact Or.inl ⟨ha, hae⟩
    · have h1 : (handleLikes lessons lid email).2 =
          updateFirst (fun l => l.id == lid) (addLike email) lessons := by
        simp [handleLikes, h0, hc]
      have hfind1 : (updateFirst (fun l => l.id == lid) (addLike email) lessons).find?
          (fun l => l.id == lid) = some (addLike email l0) := by
        rw [find?_updateFirst (fun l => l.id == lid) (addLike email) (fun x hx => hx) lessons,
          h0, Option.map_some']
      have hadd : (addLike email l0).likes = l0.likes ++ [email] := by
        simp [addLike, hc]
      have hc2 : email ∈ (addLike email l0).likes := by
        rw [hadd]
        simp
      have h2 : (handleLikes (updateFirst (fun l => l.id == lid) (addLike email) lessons)
            lid email).2 =
          updateFirst (fun l => l.id == lid) (pullLike email)
            (updateFirst (fun l => l.id == lid) (addLike email) lessons) := by
        simp [handleLikes, hfind1, hc2]
      have hfind2 : (updateFirst (fun l => l.id == lid) (pullLike email)
            (updateFirst (fun l => l.id == lid) (addLike email) lessons)).find?
          (fun l => l.id == lid) = some (pullLike email (addLike email l0)) := by
        rw [find?_updateFirst (fun l => l.id == lid) (pullLike email) (fun x hx => hx)
            (updateFirst (fun l => l.id == lid) (addLike email) lessons),
          hfind1, Option.map_some']
      have hpull : (pullLike email (addLike email l0)).likes = l0.likes := by
        simp only [pullLike, hadd, List.filter_append]
        rw [List.filter_eq_self.mpr, List.filter_cons, List.filter_nil]
        · simp
        · intro a ha
          simp only [decide_eq_true_eq]
          intro hae
          exact hc (hae ▸ ha)
      rw [h1, h2, hfind2, Option.map_some', hpull]

/-- Witness for C4: toggling twice restores the liker set of a concrete
lesson. -/
theorem likesToggleInverse_witness :
    (((handleLikes (handleLikes [{ id := 1, likes := ["x", "e", "y"] }] 1 "e").2 1 "e").2).find?
        (fun l => l.id == 1)).map (fun l => l.likes.toFinset) =
      some ({ id := 1, likes := ["x", "e", "y"] } : Lesson).likes.toFinset :=
  (likesToggleInverse [{ id := 1, likes := ["x", "e", "y"] }] 1 "e").2
    { id := 1, likes := ["x", "e", "y"] } (by decide)

end DLL
